import Mathlib

/-!
Verification of the shoot360-dashboard-lite metric aggregation service.

The definitions below are a shallow embedding of the aggregation core of the
repository.  The server variants under scrutiny are:
  * the final variant of `src/server.js` (functions `dateRange`, `fetchAll`,
    `computeOne`, routes `/stats/:location` and `/stats`),
  * the pipelines fan-out variant of `src/server.js` (lines 344-428, route
    `/stats/:location` with per-pipeline error markers),
  * the headcount-plus-contacts variant of `src/unnamed/part_007`
    (lines 292-523, route `/stats/:location` returning 500 on a contacts
    failure); `src/unnamed/part_004` lines 134-208 has the same contact fold.

Network fetches are modelled by their outcomes: a fetch of a sub-resource is a
value of `Except String (List _)` (the caught axios error carries a message),
and paginated upstream state is a function from page number to the page's
records.  JavaScript `Date.parse` results are modelled as `Option Int`
(`none` models `NaN`); `toLowerCase` is modelled per-character.
-/

namespace Dash

/-- The six metric names of a `MetricBucket`. -/
inductive Metric where
  | leads
  | appointments
  | shows
  | noShows
  | wins
  | cold
deriving DecidableEq, Repr

/-- A metric bucket, as initialised by
`{ leads:0, appointments:0, shows:0, noShows:0, wins:0, cold:0 }` in
`computeOne` (src/server.js lines 542-544). -/
structure Bucket where
  leads : Nat
  appointments : Nat
  shows : Nat
  noShows : Nat
  wins : Nat
  cold : Nat
deriving DecidableEq, Repr

/-- The all-zero bucket. -/
def Bucket.zero : Bucket := ⟨0, 0, 0, 0, 0, 0⟩

/-- Read one metric field of a bucket. -/
def Bucket.get (b : Bucket) : Metric → Nat
  | .leads => b.leads
  | .appointments => b.appointments
  | .shows => b.shows
  | .noShows => b.noShows
  | .wins => b.wins
  | .cold => b.cold

/-- Increment one metric field of a bucket (the `++` statements of the
contact fold). -/
def Bucket.inc (m : Metric) (b : Bucket) : Bucket :=
  match m with
  | .leads => { b with leads := b.leads + 1 }
  | .appointments => { b with appointments := b.appointments + 1 }
  | .shows => { b with shows := b.shows + 1 }
  | .noShows => { b with noShows := b.noShows + 1 }
  | .wins => { b with wins := b.wins + 1 }
  | .cold => { b with cold := b.cold + 1 }

/-- Field-wise sum of two buckets, as in the `/stats` aggregation loop
`Object.keys(combined).forEach(k => combined[k] += r.combined[k] || 0)`
(src/server.js line 639). -/
def Bucket.add (a b : Bucket) : Bucket :=
  ⟨a.leads + b.leads, a.appointments + b.appointments, a.shows + b.shows,
   a.noShows + b.noShows, a.wins + b.wins, a.cold + b.cold⟩

/-- JavaScript `String.prototype.toLowerCase`, modelled per character
(ASCII lowering; the tags and pipeline names in play are ASCII). -/
def lowerStr (s : String) : String := String.mk (s.data.map Char.toLower)

/-- JavaScript `String.prototype.includes`: `containsSub n h` is true when
the character list `n` occurs contiguously inside `h`. -/
def containsSub (needle : List Char) : List Char → Bool
  | [] => needle.isEmpty
  | c :: rest => needle.isPrefixOf (c :: rest) || containsSub needle rest


/-! ## Date handling

`dateRange` (src/server.js lines 476-489) and the textually identical
`getDateRange` (src/server.js lines 324-337, src/unnamed/part_004 lines
39-51, src/unnamed/part_007 lines 27-38) resolve the request's date window.
`Date.parse` applied to the documented `YYYY-MM-DD` query parameters is
modelled by `parseIsoDate`: a date-only ISO string parses to UTC midnight
of that day in epoch milliseconds, everything else (in particular the empty
string, which is also falsy in the JS guard) yields `none`, modelling `NaN`. -/

/-- Leap-year test of the proleptic Gregorian calendar. -/
def isLeapYear (y : Nat) : Bool :=
  (y % 4 = 0 && y % 100 ≠ 0) || y % 400 = 0

/-- Number of days of month `m` (1-based) of year `y`. -/
def daysInMonth (y m : Nat) : Nat :=
  if m = 2 then (if isLeapYear y then 29 else 28)
  else if m = 4 || m = 6 || m = 9 || m = 11 then 30
  else 31

/-- Days from 1970-01-01 to the civil date `y-m-d` (standard civil-calendar
day-count computation; the divisions are C-style truncating divisions, which
agrees with Lean `Int` division on the values reached here). -/
def daysFromCivil (y m d : Int) : Int :=
  let y' := if m ≤ 2 then y - 1 else y
  let era := (if 0 ≤ y' then y' else y' - 399) / 400
  let yoe := y' - era * 400
  let doy := (153 * (if 2 < m then m - 3 else m + 9) + 2) / 5 + d - 1
  let doe := yoe * 365 + yoe / 4 - yoe / 100 + doy
  era * 146097 + doe - 719468

/-- Numeric value of a decimal digit character. -/
def digitVal (c : Char) : Nat := c.toNat - 48

/-- JavaScript `Date.parse` restricted to `YYYY-MM-DD` strings (the format
the routes document for `startDate`/`endDate`); any other string is treated
as unparseable (`none`, modelling `NaN`).  A valid date parses to UTC
midnight of that day, in milliseconds since the epoch. -/
def parseIsoDate (s : String) : Option Int :=
  match s.data with
  | [y1, y2, y3, y4, h1, m1, m2, h2, d1, d2] =>
    if h1 = '-' && h2 = '-' && y1.isDigit && y2.isDigit && y3.isDigit &&
        y4.isDigit && m1.isDigit && m2.isDigit && d1.isDigit && d2.isDigit then
      let y := ((digitVal y1 * 10 + digitVal y2) * 10 + digitVal y3) * 10 + digitVal y4
      let mo := digitVal m1 * 10 + digitVal m2
      let da := digitVal d1 * 10 + digitVal d2
      if 1 ≤ mo && mo ≤ 12 && 1 ≤ da && da ≤ daysInMonth y mo then
        some (daysFromCivil (Int.ofNat y) (Int.ofNat mo) (Int.ofNat da) * 86400000)
      else none
    else none
  | _ => none


/-- The date-range helper `dateRange` (src/server.js lines 476-489): if both
query parameters are present, non-empty (JS truthiness) and parse, the window
is `[parsed start, parsed end + 86399999]`; otherwise it is the trailing
30-day window `[now - 2592000000, now]`.  `getDateRange` (src/server.js
lines 324-337 and the unnamed variants) is character-identical. -/
def dateRange (now : Int) (startQ endQ : Option String) : Int × Int :=
  match startQ, endQ with
  | some ss, some es =>
    if ss = "" || es = "" then (now - 2592000000, now)
    else
      match parseIsoDate ss, parseIsoDate es with
      | some s, some e => (s, e + 86399999)
      | _, _ => (now - 2592000000, now)
  | _, _ => (now - 2592000000, now)

/-- The window-membership test of the contact fold (src/server.js line 578):
a record with timestamp `t` is inside the window when the fold does NOT skip
it, i.e. `!(t < start || t > stop)`. -/
def inWindow (start stop t : Int) : Bool :=
  !(decide (t < start) || decide (t > stop))

/-! ## Paginated fetching

`fetchAll` (src/server.js lines 490-501) pages through an upstream list
endpoint: request page `n` with `perPage = 50`, append `data[listKey] || []`,
stop as soon as a page returns fewer than 50 records.  `fetchAllContacts`
(src/unnamed/part_007 lines 41-55, part_004 lines 54-68) and
`fetchAllPipelineOpps` (part_007 lines 362-379) are the same loop.  The
upstream service is modelled as a function from page number to the page it
returns; the loop is given fuel because a malicious upstream that always
returns full pages would make the JS loop run forever as well. -/

/-- The pagination loop of `fetchAll`, starting at page `page` with
accumulator `acc`; returns `none` when the fuel runs out before a short page
is seen. -/
def fetchAllLoop {α : Type} (pages : Nat → List α) : Nat → Nat → List α → Option (List α)
  | 0, _, _ => none
  | fuel + 1, page, acc =>
    let batch := pages page
    let acc' := acc ++ batch
    if batch.length < 50 then some acc'
    else fetchAllLoop pages fuel (page + 1) acc'

/-- `fetchAll` (src/server.js lines 490-501): page through the upstream from
page 1 with an empty accumulator. -/
def fetchAll {α : Type} (pages : Nat → List α) (fuel : Nat) : Option (List α) :=
  fetchAllLoop pages fuel 1 []

/-! ## The aggregation core `computeOne`

`computeOne` (src/server.js lines 538-591).  A pipeline fetch outcome is the
pair of the pipeline's (lower-cased) name and the `Except`-modelled result of
`fetchAll` on its opportunities; the contacts fetch outcome is modelled the
same way.  Phase A (headcount leads) walks the pipelines in order: a
successful fetch sets the pipeline bucket's `leads` to the number of
opportunities whose `stageName` contains "lead" (case-insensitively) and adds
that headcount to `combined.leads`; a failed fetch is caught, logged and
skipped.  Phase B folds the contacts: a contact whose `dateUpdated` is `NaN`
or outside the window is skipped, otherwise each of the five outcome tags
increments `combined` and every member pipeline bucket.  A contacts fetch
failure is caught and the fold runs over the empty list. -/

/-- An opportunity as read by the aggregation code: `stageName` and `tags`
may be absent upstream. -/
structure Opp where
  stageName : Option String
  tags : Option (List String)
deriving Repr, DecidableEq

/-- A contact as read by the aggregation code.  `dateUpdated` holds the
result of `Date.parse(c.dateUpdated)` (`none` models `NaN`); `tags` models
`c.tags || []`. -/
structure Contact where
  dateUpdated : Option Int
  tags : List String
deriving Repr, DecidableEq

/-- The per-pipeline fetch outcomes of one `computeOne` run: pipeline name
paired with the result of fetching that pipeline's opportunities. -/
abbrev PipeFetches := List (String × Except String (List Opp))

/-- The test `(o.stageName || "").toLowerCase().includes("lead")`
(src/server.js line 555). -/
def isLeadStage (o : Opp) : Bool :=
  containsSub "lead".data (lowerStr (o.stageName.getD "")).data

/-- The headcount of a fetched opportunity list: the opportunities currently
sitting in a "lead" stage. -/
def leadHeadcount (opps : List Opp) : Nat :=
  (opps.filter isLeadStage).length

/-- The JS assignment `byPipe[p.name].leads = headcount`. -/
def setLeads (bp : String → Bucket) (n : String) (v : Nat) : String → Bucket :=
  fun q => if q = n then { bp q with leads := v } else bp q

/-- Phase A of `computeOne` (src/server.js lines 546-561), threading
`combined.leads` and the pipeline buckets; a failed fetch leaves both
untouched. -/
def leadsPhase : PipeFetches → Nat × (String → Bucket) → Nat × (String → Bucket)
  | [], st => st
  | (_, .error _) :: rest, st => leadsPhase rest st
  | (n, .ok opps) :: rest, (cl, bp) =>
    leadsPhase rest (cl + leadHeadcount opps, setLeads bp n (leadHeadcount opps))

/-- The `member.forEach(n => byPipe[n].metric++)` loop of the contact fold. -/
def bumpMany (m : Metric) (member : List String) (bp : String → Bucket) : String → Bucket :=
  member.foldl (fun f n => fun q => if q = n then Bucket.inc m (f q) else f q) bp

/-- One `if (tags.includes(tag)) { combined.m++; member.forEach(...) }` block
of the contact fold (src/server.js lines 583-587). -/
def applyTag (tg : String) (m : Metric) (tags member : List String)
    (st : Bucket × (String → Bucket)) : Bucket × (String → Bucket) :=
  if tags.contains tg then (st.1.inc m, bumpMany m member st.2) else st

/-- One iteration of the contact fold of `computeOne` (src/server.js lines
576-588): skip when `Date.parse(c.dateUpdated)` is `NaN` or outside the
window, otherwise apply the five tag blocks in source order. -/
def contactStep (names : List String) (start stop : Int)
    (st : Bucket × (String → Bucket)) (c : Contact) : Bucket × (String → Bucket) :=
  match c.dateUpdated with
  | none => st
  | some t =>
    if inWindow start stop t then
      let tags := c.tags.map lowerStr
      let member := names.filter (fun n => tags.contains n)
      applyTag "cold" .cold tags member
        (applyTag "won" .wins tags member
          (applyTag "no-show" .noShows tags member
            (applyTag "show" .shows tags member
              (applyTag "appointment" .appointments tags member st))))
    else st

/-- The caught contacts fetch of `computeOne` (src/server.js lines 563-574):
a failure is logged and the fold proceeds over the empty list. -/
def contactsOf : Except String (List Contact) → List Contact
  | .ok cs => cs
  | .error _ => []

/-- The value `computeOne` resolves with: the combined bucket and the
per-pipeline breakdown (`byPipe`), an object keyed by pipeline name. -/
structure AggregationResult where
  combined : Bucket
  byPipe : String → Bucket

/-- `computeOne` (src/server.js lines 538-591) over the fetch outcomes of one
location: initialise every bucket to zero, run the headcount-leads phase over
the pipelines, then fold the contacts. -/
def computeOne (pipes : PipeFetches) (contactsRes : Except String (List Contact))
    (start stop : Int) : AggregationResult :=
  let names := pipes.map Prod.fst
  let ph := leadsPhase pipes (0, fun _ => Bucket.zero)
  let st := (contactsOf contactsRes).foldl (contactStep names start stop)
    ({ Bucket.zero with leads := ph.1 }, ph.2)
  ⟨st.1, st.2⟩

/-- The single-location route of the final variant (src/server.js lines
601-620): 404 for an unknown slug, otherwise respond 200 with the
`computeOne` result (`computeOne` only throws for an unknown slug, which the
route has already excluded, so the catch-branch 500 is unreachable). -/
def statsLocationRoute (loc : Option (PipeFetches × Except String (List Contact)))
    (start stop : Int) : Nat × Option AggregationResult :=
  match loc with
  | none => (404, none)
  | some w => (200, some (computeOne w.1 w.2 start stop))

/-- The `/stats` multi-location aggregation of `combined` (src/server.js
lines 633-639): sum the `computeOne` combined buckets of the selected
locations field by field. -/
def computeManyCombined (locs : List (PipeFetches × Except String (List Contact)))
    (start stop : Int) : Bucket :=
  (locs.map (fun w => (computeOne w.1 w.2 start stop).combined)).foldl Bucket.add Bucket.zero

/-! ## The pipelines fan-out variant (src/server.js lines 344-428)

This `/stats/:location` handler fetches contacts, appointments and the
per-pipeline opportunities, each section under its own `catch`.  A failed
pipeline fetch stores `{ error: true, details }` under the pipeline's name;
a successful one stores `{ total, wins, cold }` and accumulates into
`combined`.  `res.json` at the end always answers 200 once the slug and API
key checks have passed.  The `Promise.all` fan-out races its branches, but
every branch writes only its own key and the `+=` accumulations commute, so
the fold below in pipeline order is a faithful determinisation. -/

/-- An appointment as read by the fan-out variant: `startTime` holds the
result of `Date.parse(a.startTime || "")`, `status` may be absent. -/
structure Appt where
  startTime : Option Int
  status : Option String
deriving Repr, DecidableEq

/-- A contact as read by the fan-out variant: `dateCreated` holds the result
of `Date.parse(c.dateCreated)`. -/
structure ContactV3 where
  dateCreated : Option Int
deriving Repr, DecidableEq

/-- A value of the `pipelines` response object of the fan-out variant:
either the per-pipeline counts or the explicit error marker
`{ error: true, details }`. -/
inductive PipeEntry where
  | stats (total wins cold : Nat)
  | errorMarker (details : String)
deriving Repr, DecidableEq

/-- The count `opps.filter(o => o.tags?.includes(tg)).length`: an absent tag
list makes the optional chaining yield `undefined`, which is falsy. -/
def oppTagCount (tg : String) (opps : List Opp) : Nat :=
  (opps.filter (fun o => match o.tags with
    | some ts => ts.contains tg
    | none => false)).length

/-- The per-pipeline fan-out of src/server.js lines 392-417, folded in
pipeline order: thread `(combined.wins, combined.cold)` and the `pipelines`
response object. -/
def pipelineFanOut : PipeFetches → (Nat × Nat) × (String → Option PipeEntry) →
    (Nat × Nat) × (String → Option PipeEntry)
  | [], st => st
  | (n, .ok opps) :: rest, ((w, cd), out) =>
    pipelineFanOut rest
      ((w + oppTagCount "won" opps, cd + oppTagCount "cold" opps),
       fun q => if q = n then
         some (.stats opps.length (oppTagCount "won" opps) (oppTagCount "cold" opps))
       else out q)
  | (n, .error d) :: rest, (wc, out) =>
    pipelineFanOut rest (wc, fun q => if q = n then some (.errorMarker d) else out q)

/-- The response body of the fan-out variant: the fields of `combined`
(lines 389, 411-412) and the `pipelines` object. -/
structure FanOutBody where
  leads : Nat
  appointments : Nat
  shows : Nat
  noShows : Nat
  wins : Nat
  cold : Nat
  pipelines : String → Option PipeEntry

/-- The `/stats/:location` handler of the fan-out variant (src/server.js
lines 345-428) after the slug and API-key guards: leads from contacts
(failure caught, leaving 0), appointment counts from the appointments fetch
(failure caught, leaving 0), wins/cold and the breakdown from the pipeline
fan-out; the HTTP status of the final `res.json` is 200. -/
def statsLocationFanOut (contactsRes : Except String (List ContactV3))
    (apptsRes : Except String (List Appt)) (pipes : PipeFetches)
    (start stop : Int) : Nat × FanOutBody :=
  let leads := match contactsRes with
    | .ok cs => (cs.filter (fun c => match c.dateCreated with
        | some t => decide (start ≤ t) && decide (t ≤ stop)
        | none => false)).length
    | .error _ => 0
  let appts : Nat × Nat × Nat := match apptsRes with
    | .ok apps =>
      let filtered := apps.filter (fun a => match a.startTime with
        | some t => decide (start ≤ t) && decide (t ≤ stop)
        | none => false)
      (filtered.length,
       (filtered.filter (fun a => match a.status with
         | some st => lowerStr st = "show"
         | none => false)).length,
       (filtered.filter (fun a => match a.status with
         | some st => lowerStr st = "no show"
         | none => false)).length)
    | .error _ => (0, 0, 0)
  let fanned := pipelineFanOut pipes ((0, 0), fun _ => none)
  (200, ⟨leads, appts.1, appts.2.1, appts.2.2, fanned.1.1, fanned.1.2, fanned.2⟩)

/-! ## The part_007 headcount variant (src/unnamed/part_007 lines 437-515)

Same headcount-leads phase as `computeOne` (an opportunities failure is
caught and leaves zeros) but a contacts fetch failure returns
`res.status(500)` immediately; its contact fold has NO `isNaN` guard, so a
contact whose `dateUpdated` parses to `NaN` passes the
`updated < start || updated > end` skip test (both comparisons are false on
`NaN`) and is counted.  `src/unnamed/part_004` lines 163-196 behaves the
same way. -/

/-- One iteration of the part_007 contact fold (lines 477-503): identical to
`contactStep` except that a `NaN` `dateUpdated` is processed rather than
skipped. -/
def contactStep007 (names : List String) (start stop : Int)
    (st : Bucket × (String → Bucket)) (c : Contact) : Bucket × (String → Bucket) :=
  let proceed : Bool := match c.dateUpdated with
    | none => true
    | some t => inWindow start stop t
  if proceed then
    let tags := c.tags.map lowerStr
    let member := names.filter (fun n => tags.contains n)
    applyTag "cold" .cold tags member
      (applyTag "won" .wins tags member
        (applyTag "no-show" .noShows tags member
          (applyTag "show" .shows tags member
            (applyTag "appointment" .appointments tags member st))))
  else st

/-- The `/stats/:location` handler of part_007 (lines 437-515) after the
slug guard: headcount-leads phase, then either 500 on a contacts fetch
failure or 200 with the folded result. -/
def statsRoute007 (pipes : PipeFetches) (contactsRes : Except String (List Contact))
    (start stop : Int) : Nat × Option AggregationResult :=
  let names := pipes.map Prod.fst
  let ph := leadsPhase pipes (0, fun _ => Bucket.zero)
  match contactsRes with
  | .error _ => (500, none)
  | .ok cs =>
    let st := cs.foldl (contactStep007 names start stop) ({ Bucket.zero with leads := ph.1 }, ph.2)
    (200, some ⟨st.1, st.2⟩)

/-! ## Contribution accounting for the contact fold -/

/-- The tag a metric is counted from in the contact fold; `leads` is not a
contact-fold metric (it comes from the headcount phase). -/
def outcomeTag : Metric → Option String
  | .leads => none
  | .appointments => some "appointment"
  | .shows => some "show"
  | .noShows => some "no-show"
  | .wins => some "won"
  | .cold => some "cold"

/-- Whether a contact passes the window-and-parse guard of the
`computeOne` contact fold. -/
def passes (start stop : Int) (c : Contact) : Bool :=
  match c.dateUpdated with
  | none => false
  | some t => inWindow start stop t

/-- The pipeline memberships of a contact: the configured names its
lower-cased tag set contains. -/
def memberOf (names : List String) (c : Contact) : List String :=
  names.filter (fun n => (c.tags.map lowerStr).contains n)

/-- What one contact adds to a `combined` metric in the `computeOne` fold. -/
def combinedDelta (start stop : Int) (c : Contact) (m : Metric) : Nat :=
  match outcomeTag m with
  | none => 0
  | some tg => if passes start stop c && (c.tags.map lowerStr).contains tg then 1 else 0

/-- What one contact adds to the bucket of name `q` in the `computeOne`
fold. -/
def bucketDelta (names : List String) (start stop : Int) (q : String)
    (c : Contact) (m : Metric) : Nat :=
  combinedDelta start stop c m * (memberOf names c).count q

/-- The headcount a pipeline fetch outcome contributes to `combined.leads`:
its lead-stage headcount on success, nothing on a caught failure. -/
def okHeadcount : String × Except String (List Opp) → Nat
  | (_, .ok opps) => leadHeadcount opps
  | (_, .error _) => 0

/-- The final `leads` value of the bucket named `q` after the headcount
phase, starting from current value `dflt`: every successful fetch of a
pipeline named `q` overwrites it, failures leave it. -/
def leadsOf (pipes : PipeFetches) (q : String) (dflt : Nat) : Nat :=
  match pipes with
  | [] => dflt
  | (n, r) :: rest =>
    if q = n then
      match r with
      | .ok opps => leadsOf rest q (leadHeadcount opps)
      | .error _ => leadsOf rest q dflt
    else leadsOf rest q dflt

/-- The opportunities actually fetched in one `computeOne` run: the
concatenation of every successful pipeline fetch. -/
def allFetchedOpps (pipes : PipeFetches) : List Opp :=
  pipes.flatMap (fun p => match p.2 with
    | .ok opps => opps
    | .error _ => [])

/-- The value stored for one pipeline by the fan-out variant. -/
def pipeEntryOf : String × Except String (List Opp) → PipeEntry
  | (_, .ok opps) => .stats opps.length (oppTagCount "won" opps) (oppTagCount "cold" opps)
  | (_, .error d) => .errorMarker d


/-- The sum of one metric over the breakdown buckets of a response, the
object keys being the distinct configured pipeline names. -/
def sumBuckets (names : List String) (bp : String → Bucket) (m : Metric) : Nat :=
  (names.dedup.map (fun n => (bp n).get m)).sum

lemma Bucket.get_inc (m m' : Metric) (b : Bucket) :
    (b.inc m).get m' = b.get m' + (if m' = m then 1 else 0) := by
  cases m <;> cases m' <;> simp [Bucket.inc, Bucket.get]

lemma bumpMany_get (m m' : Metric) (member : List String) (bp : String → Bucket) (q : String) :
    ((bumpMany m member bp) q).get m' =
      (bp q).get m' + (if m' = m then member.count q else 0) := by
  induction member generalizing bp with
  | nil => simp [bumpMany]
  | cons n rest ih =>
    show ((bumpMany m rest _) q).get m' = _
    rw [ih]
    by_cases hq : q = n
    · subst hq
      simp [Bucket.get_inc, List.count_cons]
      split <;> omega
    · simp [hq, List.count_cons, Ne.symm hq]

lemma applyTag_fst_get (tg : String) (m m' : Metric) (tags member : List String)
    (st : Bucket × (String → Bucket)) :
    ((applyTag tg m tags member st).1).get m' =
      st.1.get m' + (if m' = m ∧ tags.contains tg then 1 else 0) := by
  unfold applyTag
  by_cases h : tg ∈ tags
  · simp [h, Bucket.get_inc]
  · simp [h]

lemma applyTag_snd_get (tg : String) (m m' : Metric) (tags member : List String)
    (st : Bucket × (String → Bucket)) (q : String) :
    ((applyTag tg m tags member st).2 q).get m' =
      (st.2 q).get m' + (if m' = m ∧ tags.contains tg then member.count q else 0) := by
  unfold applyTag
  by_cases h : tg ∈ tags
  · simp [h, bumpMany_get]
  · simp [h]

lemma contactStep_fst_get (names : List String) (start stop : Int)
    (st : Bucket × (String → Bucket)) (c : Contact) (m : Metric) :
    ((contactStep names start stop st c).1).get m =
      st.1.get m + combinedDelta start stop c m := by
  unfold contactStep combinedDelta passes
  cases hdu : c.dateUpdated with
  | none => cases m <;> simp [outcomeTag]
  | some t =>
    by_cases hw : inWindow start stop t
    · simp only [hw, if_true]
      cases m <;>
        simp [applyTag_fst_get, outcomeTag]
    · simp only [hw]
      cases m <;> simp [outcomeTag]

lemma contactStep_snd_get (names : List String) (start stop : Int)
    (st : Bucket × (String → Bucket)) (c : Contact) (q : String) (m : Metric) :
    ((contactStep names start stop st c).2 q).get m =
      (st.2 q).get m + bucketDelta names start stop q c m := by
  unfold contactStep bucketDelta combinedDelta passes memberOf
  cases hdu : c.dateUpdated with
  | none => cases m <;> simp [outcomeTag]
  | some t =>
    by_cases hw : inWindow start stop t
    · simp only [hw, if_true]
      cases m <;> simp [applyTag_snd_get, outcomeTag]
    · simp only [hw]
      cases m <;> simp [outcomeTag]

lemma foldl_contactStep_fst_get (names : List String) (start stop : Int)
    (cs : List Contact) (st : Bucket × (String → Bucket)) (m : Metric) :
    ((cs.foldl (contactStep names start stop) st).1).get m =
      st.1.get m + (cs.map (fun c => combinedDelta start stop c m)).sum := by
  induction cs generalizing st with
  | nil => simp
  | cons c rest ih =>
    simp only [List.foldl_cons, List.map_cons, List.sum_cons]
    rw [ih, contactStep_fst_get]
    omega

lemma foldl_contactStep_snd_get (names : List String) (start stop : Int)
    (cs : List Contact) (st : Bucket × (String → Bucket)) (q : String) (m : Metric) :
    ((cs.foldl (contactStep names start stop) st).2 q).get m =
      (st.2 q).get m + (cs.map (fun c => bucketDelta names start stop q c m)).sum := by
  induction cs generalizing st with
  | nil => simp
  | cons c rest ih =>
    simp only [List.foldl_cons, List.map_cons, List.sum_cons]
    rw [ih, contactStep_snd_get]
    omega

/-! ## Accounting for the headcount-leads phase -/



lemma leadsOf_cons (n : String) (r : Except String (List Opp)) (rest : PipeFetches)
    (q : String) (dflt : Nat) :
    leadsOf ((n, r) :: rest) q dflt =
      if q = n then
        (match r with
         | .ok opps => leadsOf rest q (leadHeadcount opps)
         | .error _ => leadsOf rest q dflt)
      else leadsOf rest q dflt := rfl

lemma leadsPhase_fst (pipes : PipeFetches) (cl : Nat) (bp : String → Bucket) :
    (leadsPhase pipes (cl, bp)).1 = cl + (pipes.map okHeadcount).sum := by
  induction pipes generalizing cl bp with
  | nil => simp [leadsPhase]
  | cons p rest ih =>
    obtain ⟨n, r⟩ := p
    cases r with
    | error d => simp [leadsPhase, okHeadcount, ih]
    | ok opps => simp [leadsPhase, okHeadcount, ih]; omega

lemma leadsPhase_snd_get (pipes : PipeFetches) (cl : Nat) (bp : String → Bucket)
    (q : String) (m : Metric) (hm : m ≠ .leads) :
    ((leadsPhase pipes (cl, bp)).2 q).get m = (bp q).get m := by
  induction pipes generalizing cl bp with
  | nil => simp [leadsPhase]
  | cons p rest ih =>
    obtain ⟨n, r⟩ := p
    cases r with
    | error d => simpa [leadsPhase] using ih cl bp
    | ok opps =>
      show ((leadsPhase rest _).2 q).get m = _
      rw [ih]
      unfold setLeads
      by_cases hq : q = n
      · subst hq
        cases m <;> simp [Bucket.get] at hm ⊢
      · simp [hq]

lemma leadsPhase_snd_leads (pipes : PipeFetches) (cl : Nat) (bp : String → Bucket)
    (q : String) :
    ((leadsPhase pipes (cl, bp)).2 q).leads = leadsOf pipes q ((bp q).leads) := by
  induction pipes generalizing cl bp with
  | nil => simp [leadsPhase, leadsOf]
  | cons p rest ih =>
    obtain ⟨n, r⟩ := p
    cases r with
    | error d =>
      show ((leadsPhase rest _).2 q).leads = leadsOf ((n, .error d) :: rest) q ((bp q).leads)
      rw [ih, leadsOf_cons]
      by_cases hq : q = n <;> simp [hq]
    | ok opps =>
      show ((leadsPhase rest _).2 q).leads = leadsOf ((n, .ok opps) :: rest) q ((bp q).leads)
      rw [ih, leadsOf_cons]
      unfold setLeads
      by_cases hq : q = n <;> simp [hq]

lemma leadsOf_not_mem (pipes : PipeFetches) (q : String) (dflt : Nat)
    (h : q ∉ pipes.map Prod.fst) : leadsOf pipes q dflt = dflt := by
  induction pipes generalizing dflt with
  | nil => rfl
  | cons p rest ih =>
    obtain ⟨n, r⟩ := p
    simp only [List.map_cons, List.mem_cons] at h
    push_neg at h
    rw [leadsOf_cons]
    simp only [h.1, if_false]
    exact ih dflt h.2

lemma leadsOf_lookup (pipes : PipeFetches) (q : String) (opps : List Opp) (dflt : Nat)
    (hnd : (pipes.map Prod.fst).Nodup) (h : (q, Except.ok opps) ∈ pipes) :
    leadsOf pipes q dflt = leadHeadcount opps := by
  induction pipes generalizing dflt with
  | nil => simp at h
  | cons p rest ih =>
    obtain ⟨n, r⟩ := p
    simp only [List.map_cons, List.nodup_cons] at hnd
    rcases List.mem_cons.1 h with heq | hrest
    · cases heq
      rw [leadsOf_cons]
      simp only [if_pos rfl]
      exact leadsOf_not_mem rest q _ hnd.1
    · have hqn : q ≠ n := by
        rintro rfl
        exact hnd.1 (List.mem_map_of_mem Prod.fst hrest)
      rw [leadsOf_cons]
      simp only [hqn, if_false]
      exact ih dflt hnd.2 hrest

lemma sum_leadsOf (pipes : PipeFetches) (hnd : (pipes.map Prod.fst).Nodup) :
    ((pipes.map Prod.fst).map (fun n => leadsOf pipes n 0)).sum =
      (pipes.map okHeadcount).sum := by
  induction pipes with
  | nil => rfl
  | cons p rest ih =>
    obtain ⟨n, r⟩ := p
    simp only [List.map_cons, List.nodup_cons] at hnd
    have hhead : leadsOf ((n, r) :: rest) n 0 = okHeadcount (n, r) := by
      rw [leadsOf_cons]
      cases r with
      | ok opps => simpa [okHeadcount] using leadsOf_not_mem rest n _ hnd.1
      | error d => simpa [okHeadcount] using leadsOf_not_mem rest n _ hnd.1
    have htail : ∀ q ∈ rest.map Prod.fst,
        leadsOf ((n, r) :: rest) q 0 = leadsOf rest q 0 := by
      intro q hq
      have hqn : q ≠ n := by rintro rfl; exact hnd.1 hq
      rw [leadsOf_cons]
      simp [hqn]
    calc ((List.map Prod.fst ((n, r) :: rest)).map fun q => leadsOf ((n, r) :: rest) q 0).sum
        = leadsOf ((n, r) :: rest) n 0 +
            ((rest.map Prod.fst).map (fun q => leadsOf ((n, r) :: rest) q 0)).sum := by
          simp
      _ = okHeadcount (n, r) + ((rest.map Prod.fst).map (fun q => leadsOf rest q 0)).sum := by
          rw [hhead, List.map_congr_left htail]
      _ = (List.map okHeadcount ((n, r) :: rest)).sum := by
          rw [ih hnd.2]; simp

/-! ## Sum bookkeeping helpers -/

lemma sum_map_add_pointwise {α : Type} (l : List α) (f g : α → Nat) :
    (l.map (fun a => f a + g a)).sum = (l.map f).sum + (l.map g).sum := by
  induction l with
  | nil => rfl
  | cons a rest ih => simp [ih]; omega

lemma sum_map_zero_fun {α : Type} (l : List α) :
    (l.map (fun _ => (0 : Nat))).sum = 0 := by
  induction l with
  | nil => rfl
  | cons a rest ih => simp [ih]

lemma sum_sum_comm {α β : Type} (l1 : List α) (l2 : List β) (f : α → β → Nat) :
    (l1.map (fun a => (l2.map (f a)).sum)).sum =
      (l2.map (fun b => (l1.map (fun a => f a b)).sum)).sum := by
  induction l1 with
  | nil => simp [sum_map_zero_fun]
  | cons a rest ih =>
    simp only [List.map_cons, List.sum_cons, ih]
    rw [← sum_map_add_pointwise]

lemma sum_map_mul_const {α : Type} (l : List α) (f : α → Nat) (k : Nat) :
    (l.map (fun a => k * f a)).sum = k * (l.map f).sum := by
  induction l with
  | nil => simp
  | cons a rest ih => simp [ih, Nat.mul_add]

/-- Summing, over a duplicate-free name list, the multiplicity of each name
in a filtered copy of the list gives the filtered length. -/
lemma sum_count_filter (names : List String) (p : String → Bool) (hnd : names.Nodup) :
    (names.map (fun n => (names.filter p).count n)).sum = (names.filter p).length := by
  induction names with
  | nil => rfl
  | cons n rest ih =>
    simp only [List.nodup_cons] at hnd
    have hcount_head : (((n :: rest).filter p).count n) = (if p n then 1 else 0) := by
      have hzero : (rest.filter p).count n = 0 :=
        List.count_eq_zero.2 (fun hmem => hnd.1 (List.mem_of_mem_filter hmem))
      by_cases hp : p n <;> simp [List.filter_cons, hp, List.count_cons, hzero]
    have htail : ∀ q ∈ rest, ((n :: rest).filter p).count q = (rest.filter p).count q := by
      intro q hq
      have hqn : q ≠ n := by rintro rfl; exact hnd.1 hq
      by_cases hp : p n <;> simp [List.filter_cons, hp, List.count_cons, hqn]
    calc (List.map (fun q => ((n :: rest).filter p).count q) (n :: rest)).sum
        = ((n :: rest).filter p).count n +
            (rest.map (fun q => ((n :: rest).filter p).count q)).sum := by simp
      _ = (if p n then 1 else 0) + (rest.map (fun q => (rest.filter p).count q)).sum := by
          rw [hcount_head, List.map_congr_left htail]
      _ = (if p n then 1 else 0) + (rest.filter p).length := by rw [ih hnd.2]
      _ = ((n :: rest).filter p).length := by
          by_cases hp : p n
          · simp [List.filter_cons, hp]
            omega
          · simp [List.filter_cons, hp]

lemma Bucket.get_add (a b : Bucket) (m : Metric) :
    (a.add b).get m = a.get m + b.get m := by
  cases m <;> simp [Bucket.add, Bucket.get]

lemma Bucket.get_zero (m : Metric) : Bucket.zero.get m = 0 := by
  cases m <;> simp [Bucket.zero, Bucket.get]

lemma Bucket.get_withLeads (cl : Nat) (m : Metric) :
    ({ Bucket.zero with leads := cl } : Bucket).get m =
      if m = .leads then cl else 0 := by
  cases m <;> simp [Bucket.zero, Bucket.get]

lemma combinedDelta_leads (start stop : Int) (c : Contact) :
    combinedDelta start stop c .leads = 0 := rfl

/-! ## The two faces of a `computeOne` result -/

lemma computeOne_combined_get (pipes : PipeFetches)
    (contactsRes : Except String (List Contact)) (start stop : Int) (m : Metric) :
    (computeOne pipes contactsRes start stop).combined.get m =
      (if m = .leads then (pipes.map okHeadcount).sum else 0) +
        ((contactsOf contactsRes).map
          (fun c => combinedDelta start stop c m)).sum := by
  unfold computeOne
  rw [foldl_contactStep_fst_get, Bucket.get_withLeads, leadsPhase_fst]
  simp

lemma computeOne_byPipe_get (pipes : PipeFetches)
    (contactsRes : Except String (List Contact)) (start stop : Int)
    (q : String) (m : Metric) :
    ((computeOne pipes contactsRes start stop).byPipe q).get m =
      (if m = .leads then leadsOf pipes q 0 else 0) +
        ((contactsOf contactsRes).map
          (fun c => bucketDelta (pipes.map Prod.fst) start stop q c m)).sum := by
  unfold computeOne
  rw [foldl_contactStep_snd_get]
  by_cases hm : m = Metric.leads
  · subst hm
    have hleads : ∀ b : Bucket, b.get .leads = b.leads := fun b => rfl
    rw [hleads, leadsPhase_snd_leads]
    simp [Bucket.zero]
  · rw [leadsPhase_snd_get _ _ _ _ _ hm, Bucket.get_zero]
    simp [hm]

/-! ## Remaining helper lemmas for the claims -/

lemma bucketDelta_leads (names : List String) (start stop : Int) (q : String) (c : Contact) :
    bucketDelta names start stop q c .leads = 0 := by
  simp [bucketDelta, combinedDelta_leads]

lemma leadsOf_le_sum (pipes : PipeFetches) (q : String) (dflt : Nat) :
    leadsOf pipes q dflt ≤ dflt + (pipes.map okHeadcount).sum := by
  induction pipes generalizing dflt with
  | nil => simp [leadsOf]
  | cons p rest ih =>
    obtain ⟨n, r⟩ := p
    rw [leadsOf_cons]
    by_cases hq : q = n
    · subst hq
      rw [if_pos rfl]
      cases r with
      | ok opps =>
        have h2 := ih (leadHeadcount opps)
        simp only [List.map_cons, List.sum_cons, okHeadcount]
        omega
      | error d =>
        have h2 := ih dflt
        simp only [List.map_cons, List.sum_cons, okHeadcount]
        omega
    · rw [if_neg hq]
      have h2 := ih dflt
      simp only [List.map_cons, List.sum_cons]
      omega


lemma leadHeadcount_append (l1 l2 : List Opp) :
    leadHeadcount (l1 ++ l2) = leadHeadcount l1 + leadHeadcount l2 := by
  simp [leadHeadcount, List.filter_append]

lemma sum_okHeadcount (pipes : PipeFetches)
    (hok : ∀ p ∈ pipes, (p.2).isOk = true) :
    (pipes.map okHeadcount).sum = leadHeadcount (allFetchedOpps pipes) := by
  induction pipes with
  | nil => rfl
  | cons p rest ih =>
    obtain ⟨n, r⟩ := p
    cases r with
    | error d =>
      have := hok (n, .error d) (List.mem_cons_self _ _)
      simp [Except.isOk, Except.toBool] at this
    | ok opps =>
      have hrest : ∀ p ∈ rest, (p.2).isOk = true :=
        fun p hp => hok p (List.mem_cons_of_mem _ hp)
      simp only [List.map_cons, List.sum_cons, okHeadcount, allFetchedOpps,
        List.flatMap_cons, ih hrest, leadHeadcount_append]


lemma pipelineFanOut_not_mem (pipes : PipeFetches)
    (st : (Nat × Nat) × (String → Option PipeEntry)) (q : String)
    (h : q ∉ pipes.map Prod.fst) :
    (pipelineFanOut pipes st).2 q = st.2 q := by
  induction pipes generalizing st with
  | nil => rfl
  | cons p rest ih =>
    obtain ⟨n, r⟩ := p
    simp only [List.map_cons, List.mem_cons] at h
    push_neg at h
    cases r with
    | ok opps =>
      show (pipelineFanOut rest _).2 q = _
      rw [ih _ h.2]
      simp [h.1]
    | error d =>
      show (pipelineFanOut rest _).2 q = _
      rw [ih _ h.2]
      simp [h.1]

lemma pipelineFanOut_lookup (pipes : PipeFetches)
    (st : (Nat × Nat) × (String → Option PipeEntry)) (n : String)
    (r : Except String (List Opp)) (hnd : (pipes.map Prod.fst).Nodup)
    (h : (n, r) ∈ pipes) :
    (pipelineFanOut pipes st).2 n = some (pipeEntryOf (n, r)) := by
  induction pipes generalizing st with
  | nil => simp at h
  | cons p rest ih =>
    obtain ⟨n0, r0⟩ := p
    simp only [List.map_cons, List.nodup_cons] at hnd
    rcases List.mem_cons.1 h with heq | hrest
    · cases heq
      cases r with
      | ok opps =>
        show (pipelineFanOut rest _).2 n = _
        rw [pipelineFanOut_not_mem rest _ n hnd.1]
        simp [pipeEntryOf]
      | error d =>
        show (pipelineFanOut rest _).2 n = _
        rw [pipelineFanOut_not_mem rest _ n hnd.1]
        simp [pipeEntryOf]
    · have hne : n ≠ n0 := by
        rintro rfl
        exact hnd.1 (List.mem_map_of_mem Prod.fst hrest)
      cases r0 with
      | ok opps => exact ih _ hnd.2 hrest
      | error d => exact ih _ hnd.2 hrest

lemma fetchAllLoop_spec {α : Type} (pages : Nat → List α) (k : Nat) :
    ∀ (page : Nat) (acc : List α),
      (∀ i, page ≤ i → i < page + k → (pages i).length = 50) →
      (pages (page + k)).length < 50 →
      fetchAllLoop pages (k + 1) page acc =
        some (acc ++ ((List.range' page (k + 1)).map pages).flatten) := by
  induction k with
  | zero =>
    intro page acc _ hshort
    simp only [Nat.add_zero] at hshort
    simp [fetchAllLoop, hshort, List.range']
  | succ k ih =>
    intro page acc hfull hshort
    have hp : (pages page).length = 50 := hfull page le_rfl (by omega)
    have hnotshort : ¬ ((pages page).length < 50) := by omega
    show (if (pages page).length < 50 then _ else fetchAllLoop pages (k + 1) (page + 1) _) = _
    rw [if_neg hnotshort]
    rw [ih (page + 1) (acc ++ pages page)
      (fun i h1 h2 => hfull i (by omega) (by omega))
      (by have : page + 1 + k = page + (k + 1) := by omega
          rw [this]; exact hshort)]
    rw [List.range'_succ page (k + 1) 1]
    simp [List.append_assoc]

/-! # The claims -/

/-- Claim C3: in the headcount leads strategy of `computeOne`, the leads
count — combined and per pipeline — equals the number of fetched
opportunities whose stage name contains "lead", and for a fixed set of
fetched opportunities it is identical for every date window: headcount leads
are not date-filtered. -/
theorem claim_C3_headcount_leads (pipes : PipeFetches)
    (contactsRes : Except String (List Contact)) (s1 e1 s2 e2 : Int)
    (hok : ∀ p ∈ pipes, (p.2).isOk = true)
    (hnd : (pipes.map Prod.fst).Nodup) :
    (computeOne pipes contactsRes s1 e1).combined.leads =
      leadHeadcount (allFetchedOpps pipes) ∧
    (∀ n opps, (n, Except.ok opps) ∈ pipes →
      ((computeOne pipes contactsRes s1 e1).byPipe n).leads = leadHeadcount opps) ∧
    (computeOne pipes contactsRes s1 e1).combined.leads =
      (computeOne pipes contactsRes s2 e2).combined.leads ∧
    (∀ q, ((computeOne pipes contactsRes s1 e1).byPipe q).leads =
      ((computeOne pipes contactsRes s2 e2).byPipe q).leads) := by
  have hcomb : ∀ s e : Int, (computeOne pipes contactsRes s e).combined.leads =
      (pipes.map okHeadcount).sum := by
    intro s e
    have h := computeOne_combined_get pipes contactsRes s e .leads
    simpa [combinedDelta_leads, sum_map_zero_fun] using h
  have hbp : ∀ (s e : Int) (q : String),
      ((computeOne pipes contactsRes s e).byPipe q).leads = leadsOf pipes q 0 := by
    intro s e q
    have h := computeOne_byPipe_get pipes contactsRes s e q .leads
    simpa [bucketDelta_leads, sum_map_zero_fun] using h
  refine ⟨?_, ?_, ?_, ?_⟩
  · rw [hcomb, sum_okHeadcount pipes hok]
  · intro n opps hmem
    rw [hbp, leadsOf_lookup pipes n opps 0 hnd hmem]
  · rw [hcomb, hcomb]
  · intro q
    rw [hbp, hbp]

theorem claim_C3_witness :
    (computeOne [("adult", Except.ok [⟨some "Lead In", none⟩, ⟨some "Won", none⟩])]
        (Except.ok [⟨some 5, ["adult", "won"]⟩]) 0 10).combined.leads = 1 ∧
    ((computeOne [("adult", Except.ok [⟨some "Lead In", none⟩, ⟨some "Won", none⟩])]
        (Except.ok [⟨some 5, ["adult", "won"]⟩]) 0 10).byPipe "adult").leads = 1 ∧
    (computeOne [("adult", Except.ok [⟨some "Lead In", none⟩, ⟨some "Won", none⟩])]
        (Except.ok [⟨some 5, ["adult", "won"]⟩]) 0 10).combined.leads =
      (computeOne [("adult", Except.ok [⟨some "Lead In", none⟩, ⟨some "Won", none⟩])]
        (Except.ok [⟨some 5, ["adult", "won"]⟩]) 500 900).combined.leads := by
  have h := claim_C3_headcount_leads
    [("adult", Except.ok [⟨some "Lead In", none⟩, ⟨some "Won", none⟩])]
    (Except.ok [⟨some 5, ["adult", "won"]⟩]) 0 10 500 900
    (by intro p hp; simp only [List.mem_singleton] at hp; subst hp; rfl)
    (by decide)
  refine ⟨?_, ?_, h.2.2.1⟩
  · rw [h.1]; decide
  · rw [h.2.1 "adult" [⟨some "Lead In", none⟩, ⟨some "Won", none⟩] (by simp)]
    decide

/-- Claim C4: the resolved date window is the parsed `startDate` paired with
the parsed `endDate` plus 86399999 ms when both parameters are supplied
(non-empty) and parseable, and the default trailing 30-day window
`[now - 2592000000, now]` otherwise; consequently a record stamped at the
last millisecond of the `endDate` day passes the window-membership test of
the fold and a record one millisecond later does not. -/
theorem claim_C4_date_window (now : Int) (startQ endQ : Option String) :
    (∀ ss es s e, startQ = some ss → endQ = some es → ss ≠ "" → es ≠ "" →
      parseIsoDate ss = some s → parseIsoDate es = some e →
      dateRange now startQ endQ = (s, e + 86399999) ∧
      (s ≤ e → inWindow s (e + 86399999) (e + 86399999) = true) ∧
      inWindow s (e + 86399999) (e + 86400000) = false) ∧
    ((startQ = none ∨ endQ = none ∨ startQ = some "" ∨ endQ = some "" ∨
      (∃ ss, startQ = some ss ∧ parseIsoDate ss = none) ∨
      (∃ es, endQ = some es ∧ parseIsoDate es = none)) →
      dateRange now startQ endQ = (now - 2592000000, now)) := by
  constructor
  · rintro ss es s e rfl rfl hss hes hs he
    refine ⟨?_, ?_, ?_⟩
    · simp [dateRange, hss, hes, hs, he]
    · intro hle
      simp only [inWindow, Bool.not_eq_true', Bool.or_eq_false_iff, decide_eq_false_iff_not]
      omega
    · simp only [inWindow, Bool.not_eq_false', Bool.or_eq_true, decide_eq_true_eq]
      omega
  · intro h
    rcases h with rfl | rfl | rfl | rfl | ⟨ss, rfl, hp⟩ | ⟨es, rfl, hp⟩
    · rfl
    · cases startQ <;> rfl
    · cases endQ with
      | none => rfl
      | some es => simp [dateRange]
    · cases startQ with
      | none => rfl
      | some ss => simp [dateRange]
    · cases endQ with
      | none => rfl
      | some es =>
        by_cases h0 : ss = "" ∨ es = ""
        · rcases h0 with rfl | rfl <;> simp [dateRange]
        · push_neg at h0
          simp [dateRange, h0.1, h0.2, hp]
    · cases startQ with
      | none => rfl
      | some ss =>
        by_cases h0 : ss = "" ∨ es = ""
        · rcases h0 with rfl | rfl <;> simp [dateRange]
        · push_neg at h0
          cases hps : parseIsoDate ss <;> simp [dateRange, h0.1, h0.2, hp, hps]

theorem claim_C4_witness :
    dateRange 0 (some "1970-01-05") (some "1970-01-10") = (345600000, 777600000 + 86399999) ∧
    inWindow 345600000 (777600000 + 86399999) (777600000 + 86399999) = true ∧
    inWindow 345600000 (777600000 + 86399999) (777600000 + 86400000) = false ∧
    dateRange 77 (some "garbage") (some "1970-01-10") = (77 - 2592000000, 77) := by
  obtain ⟨hboth, hdflt⟩ := claim_C4_date_window 0 (some "1970-01-05") (some "1970-01-10")
  obtain ⟨h1, h2, h3⟩ := hboth "1970-01-05" "1970-01-10" 345600000 777600000 rfl rfl
    (by decide) (by decide) (by decide) (by decide)
  obtain ⟨-, hdflt2⟩ := claim_C4_date_window 77 (some "garbage") (some "1970-01-10")
  exact ⟨h1, h2 (by decide), h3,
    hdflt2 (Or.inr (Or.inr (Or.inr (Or.inr (Or.inl ⟨"garbage", rfl, by decide⟩)))))⟩

/-- Claim C5 counterexample: reversed calendar dates make the resolved
window violate `start ≤ end` — the code never validates the ordering of
`startDate` and `endDate`. -/
theorem claim_C5_counterexample :
    ¬ ((dateRange 0 (some "1970-01-02") (some "1970-01-01")).1 ≤
       (dateRange 0 (some "1970-01-02") (some "1970-01-01")).2) := by decide

/-- Claim C5 as amended: the resolved window satisfies
`startInclusiveMs ≤ endInclusiveMs` for the default trailing-30-day path and
whenever the parsed `startDate` is at most the parsed `endDate`; when the
parameters parse in reversed order the window comes out reversed as well. -/
theorem claim_C5_amended (now : Int) (startQ endQ : Option String)
    (h : ∀ ss es s e, startQ = some ss → endQ = some es →
      parseIsoDate ss = some s → parseIsoDate es = some e → s ≤ e) :
    (dateRange now startQ endQ).1 ≤ (dateRange now startQ endQ).2 := by
  cases startQ with
  | none => simp [dateRange]; try omega
  | some ss =>
    cases endQ with
    | none => simp [dateRange]; try omega
    | some es =>
      by_cases h0 : ss = "" ∨ es = ""
      · rcases h0 with rfl | rfl <;> · simp [dateRange]; try omega
      · push_neg at h0
        cases hs : parseIsoDate ss with
        | none => simp [dateRange, h0.1, h0.2, hs]; try omega
        | some s =>
          cases he : parseIsoDate es with
          | none => simp [dateRange, h0.1, h0.2, hs, he]; try omega
          | some e =>
            have hse := h ss es s e rfl rfl hs he
            simp [dateRange, h0.1, h0.2, hs, he]
            try omega

theorem claim_C5_witness :
    (dateRange 0 (some "1970-01-01") (some "1970-01-02")).1 ≤
      (dateRange 0 (some "1970-01-01") (some "1970-01-02")).2 := by
  apply claim_C5_amended
  intro ss es s e h1 h2 hs he
  injection h1 with h1
  injection h2 with h2
  subst h1; subst h2
  rw [show parseIsoDate "1970-01-01" = some 0 by decide] at hs
  rw [show parseIsoDate "1970-01-02" = some 86400000 by decide] at he
  injection hs with hs
  injection he with he
  omega

/-- Claim C7: the `/stats` multi-location aggregation of two locations sums,
metric by metric, the `combined` buckets of the individual `computeOne`
results. -/
theorem claim_C7_multi_location (wa wb : PipeFetches × Except String (List Contact))
    (start stop : Int) (m : Metric) :
    (computeManyCombined [wa, wb] start stop).get m =
      (computeOne wa.1 wa.2 start stop).combined.get m +
        (computeOne wb.1 wb.2 start stop).combined.get m := by
  simp only [computeManyCombined, List.map_cons, List.map_nil, List.foldl_cons,
    List.foldl_nil, Bucket.get_add, Bucket.get_zero]
  omega

/-- Claim C8: the paginated fetch helper returns exactly the concatenation,
in page order, of the upstream pages up to and including the first page
shorter than the fixed page size 50, having requested pages 1, 2, … while
each page came back full. -/
theorem claim_C8_pagination {α : Type} (pages : Nat → List α) (k : Nat)
    (hfull : ∀ i, 1 ≤ i → i < 1 + k → (pages i).length = 50)
    (hshort : (pages (1 + k)).length < 50) :
    fetchAll pages (k + 1) = some (((List.range' 1 (k + 1)).map pages).flatten) := by
  have h := fetchAllLoop_spec pages k 1 [] hfull hshort
  simpa [fetchAll] using h

theorem claim_C8_witness :
    fetchAll (fun i => if i = 1 then List.replicate 50 (0 : Nat) else
      if i = 2 then [7] else []) 2 =
      some (((List.range' 1 2).map (fun i => if i = 1 then List.replicate 50 (0 : Nat) else
        if i = 2 then [7] else [])).flatten) := by
  apply claim_C8_pagination _ 1
  · intro i h1 h2
    have : i = 1 := by omega
    subst this
    simp
  · simp

/-- Claim C9: in every `computeOne` result over a configuration whose
pipeline names are distinct (one pipeline per logical name, as the
initialisation's whitelist of Youth/Adult/Leagues produces), every
per-pipeline count is at most the corresponding combined count. -/
theorem claim_C9_bucket_le_combined (pipes : PipeFetches)
    (contactsRes : Except String (List Contact)) (start stop : Int)
    (hnd : (pipes.map Prod.fst).Nodup) :
    ∀ q m, ((computeOne pipes contactsRes start stop).byPipe q).get m ≤
      (computeOne pipes contactsRes start stop).combined.get m := by
  intro q m
  rw [computeOne_byPipe_get, computeOne_combined_get]
  have hsum : ((contactsOf contactsRes).map
        (fun c => bucketDelta (pipes.map Prod.fst) start stop q c m)).sum ≤
      ((contactsOf contactsRes).map (fun c => combinedDelta start stop c m)).sum := by
    apply List.sum_le_sum
    intro c _
    have hcount : (memberOf (pipes.map Prod.fst) c).count q ≤ 1 := by
      have hmnd : (memberOf (pipes.map Prod.fst) c).Nodup := hnd.filter _
      exact List.nodup_iff_count_le_one.1 hmnd q
    calc bucketDelta (pipes.map Prod.fst) start stop q c m
        ≤ combinedDelta start stop c m * 1 :=
          Nat.mul_le_mul_left _ hcount
      _ = combinedDelta start stop c m := Nat.mul_one _
  by_cases hm : m = Metric.leads
  · subst hm
    have hlo := leadsOf_le_sum pipes q 0
    simp only [eq_self_iff_true, if_true]
    omega
  · simp only [hm, if_false]
    omega

theorem claim_C9_witness :
    ((computeOne [("adult", Except.ok []), ("youth", Except.ok [])]
        (Except.ok [⟨some 5, ["won"]⟩, ⟨some 6, ["won", "adult"]⟩]) 0 10).byPipe "adult").get .wins ≤
      (computeOne [("adult", Except.ok []), ("youth", Except.ok [])]
        (Except.ok [⟨some 5, ["won"]⟩, ⟨some 6, ["won", "adult"]⟩]) 0 10).combined.get .wins :=
  claim_C9_bucket_le_combined [("adult", Except.ok []), ("youth", Except.ok [])]
    (Except.ok [⟨some 5, ["won"]⟩, ⟨some 6, ["won", "adult"]⟩]) 0 10 (by decide) "adult" .wins

/-- Claim C10: in `computeOne`, a contact whose `dateUpdated` fails to parse
(`Date.parse` yields `NaN`, modelled as `none`) contributes to no metric of
the result — removing it from the fetched contact list leaves the whole
`computeOne` output unchanged, whatever its tags and whatever the window. -/
theorem claim_C10_nan_contact_inert (pipes : PipeFetches)
    (cs1 cs2 : List Contact) (c : Contact) (start stop : Int)
    (h : c.dateUpdated = none) :
    computeOne pipes (Except.ok (cs1 ++ c :: cs2)) start stop =
      computeOne pipes (Except.ok (cs1 ++ cs2)) start stop := by
  have hstep : ∀ st, contactStep (pipes.map Prod.fst) start stop st c = st := by
    intro st
    unfold contactStep
    rw [h]
  unfold computeOne
  simp [contactsOf, List.foldl_append, hstep]

theorem claim_C10_witness :
    computeOne [("adult", Except.ok [])]
        (Except.ok ([⟨some 3, ["won", "adult"]⟩] ++ ⟨none, ["won", "adult"]⟩ :: []))
        0 10 =
      computeOne [("adult", Except.ok [])]
        (Except.ok ([⟨some 3, ["won", "adult"]⟩] ++ [])) 0 10 :=
  claim_C10_nan_contact_inert [("adult", Except.ok [])]
    [⟨some 3, ["won", "adult"]⟩] [] ⟨none, ["won", "adult"]⟩ 0 10 rfl

/-- Claim C6 counterexample: a contact carrying the `appointment` tag but no
pipeline tag (so it belongs to zero pipelines, not multiple) contributes to
`combined` but to no breakdown bucket, so `combined.appointments` exceeds
the sum over the buckets even though no record is double-counted. -/
theorem claim_C6_counterexample :
    ¬ ((computeOne [("adult", Except.ok [])]
          (Except.ok [⟨some 5, ["appointment"]⟩]) 0 10).combined.get .appointments =
        sumBuckets ["adult"]
          (computeOne [("adult", Except.ok [])]
            (Except.ok [⟨some 5, ["appointment"]⟩]) 0 10).byPipe .appointments) := by
  decide

/-- Claim C6 as amended: when the configured pipeline names are distinct and
every fetched contact carries exactly one configured pipeline tag, each
combined metric equals the sum of that metric over the breakdown buckets;
a record with several pipeline tags is double-counted across buckets while
counting once in `combined`, and a record with no pipeline tag counts in
`combined` only, so equality requires exactly-one membership. -/
theorem claim_C6_amended (pipes : PipeFetches)
    (contactsRes : Except String (List Contact)) (start stop : Int)
    (hnd : (pipes.map Prod.fst).Nodup)
    (hone : ∀ c ∈ contactsOf contactsRes,
      (memberOf (pipes.map Prod.fst) c).length = 1) :
    ∀ m, (computeOne pipes contactsRes start stop).combined.get m =
      sumBuckets (pipes.map Prod.fst)
        (computeOne pipes contactsRes start stop).byPipe m := by
  intro m
  rw [computeOne_combined_get]
  unfold sumBuckets
  rw [hnd.dedup]
  rw [List.map_congr_left
    (fun n _ => computeOne_byPipe_get pipes contactsRes start stop n m)]
  rw [sum_map_add_pointwise]
  have hleadpart : ((pipes.map Prod.fst).map
      (fun n => if m = Metric.leads then leadsOf pipes n 0 else 0)).sum =
      (if m = Metric.leads then (pipes.map okHeadcount).sum else 0) := by
    by_cases hm : m = Metric.leads
    · simp only [hm, if_pos rfl]
      exact sum_leadsOf pipes hnd
    · simp only [hm, if_false]
      exact sum_map_zero_fun (pipes.map Prod.fst)
  have hdeltapart : ((pipes.map Prod.fst).map (fun n =>
        ((contactsOf contactsRes).map
          (fun c => bucketDelta (pipes.map Prod.fst) start stop n c m)).sum)).sum =
      ((contactsOf contactsRes).map (fun c => combinedDelta start stop c m)).sum := by
    rw [sum_sum_comm]
    apply congrArg
    apply List.map_congr_left
    intro c hc
    unfold bucketDelta
    rw [sum_map_mul_const]
    have hcnt : ((pipes.map Prod.fst).map
        (fun n => (memberOf (pipes.map Prod.fst) c).count n)).sum =
        (memberOf (pipes.map Prod.fst) c).length :=
      sum_count_filter (pipes.map Prod.fst) _ hnd
    rw [hcnt, hone c hc, Nat.mul_one]
  rw [hleadpart, hdeltapart]

theorem claim_C6_witness :
    (computeOne [("adult", Except.ok []), ("youth", Except.ok [])]
        (Except.ok [⟨some 5, ["adult", "won"]⟩, ⟨some 7, ["youth", "won"]⟩]) 0 10).combined.get .wins =
      sumBuckets ["adult", "youth"]
        (computeOne [("adult", Except.ok []), ("youth", Except.ok [])]
          (Except.ok [⟨some 5, ["adult", "won"]⟩, ⟨some 7, ["youth", "won"]⟩]) 0 10).byPipe .wins := by
  have h := claim_C6_amended [("adult", Except.ok []), ("youth", Except.ok [])]
    (Except.ok [⟨some 5, ["adult", "won"]⟩, ⟨some 7, ["youth", "won"]⟩]) 0 10
    (by decide)
    (by intro c hc
        simp only [contactsOf, List.mem_cons, List.not_mem_nil, or_false] at hc
        rcases hc with rfl | rfl <;> decide)
  exact h .wins

/-- Claim C1 counterexample: in `computeOne` (src/server.js lines 546-561) a
failed pipeline opportunity fetch produces NO error marker — the whole
response (combined bucket and the failed pipeline's bucket) is identical to
the response of a run in which the same pipeline successfully fetched zero
opportunities, so the failure is reported as a zero indistinguishable from a
true zero. -/
theorem claim_C1_counterexample :
    (computeOne [("adult", Except.error "boom"), ("youth", Except.ok [])]
        (Except.ok [⟨some 5, ["adult", "won"]⟩]) 0 10).byPipe "adult" =
      (computeOne [("adult", Except.ok []), ("youth", Except.ok [])]
        (Except.ok [⟨some 5, ["adult", "won"]⟩]) 0 10).byPipe "adult" ∧
    (computeOne [("adult", Except.error "boom"), ("youth", Except.ok [])]
        (Except.ok [⟨some 5, ["adult", "won"]⟩]) 0 10).combined =
      (computeOne [("adult", Except.ok []), ("youth", Except.ok [])]
        (Except.ok [⟨some 5, ["adult", "won"]⟩]) 0 10).combined := by
  exact ⟨by decide, by decide⟩

/-- Claim C1 as amended: the explicit-error-marker behaviour holds in the
pipelines fan-out variant (src/server.js lines 392-417), not in `computeOne`:
there, with distinct pipeline names, a failed pipeline's entry in the
response's `pipelines` object is the marker `{ error: true, details }`, a
succeeded pipeline's entry is its counts, and the HTTP status is 200;
`computeOne` (lines 546-561) instead leaves a failed pipeline's bucket at
zero counts with no marker. -/
theorem claim_C1_amended (contactsRes : Except String (List ContactV3))
    (apptsRes : Except String (List Appt)) (pipes : PipeFetches) (start stop : Int)
    (hnd : (pipes.map Prod.fst).Nodup) :
    (statsLocationFanOut contactsRes apptsRes pipes start stop).1 = 200 ∧
    (∀ n d, (n, Except.error d) ∈ pipes →
      (statsLocationFanOut contactsRes apptsRes pipes start stop).2.pipelines n =
        some (PipeEntry.errorMarker d)) ∧
    (∀ n opps, (n, Except.ok opps) ∈ pipes →
      (statsLocationFanOut contactsRes apptsRes pipes start stop).2.pipelines n =
        some (PipeEntry.stats opps.length (oppTagCount "won" opps)
          (oppTagCount "cold" opps))) := by
  have hpl : (statsLocationFanOut contactsRes apptsRes pipes start stop).2.pipelines =
      (pipelineFanOut pipes ((0, 0), fun _ => none)).2 := rfl
  refine ⟨rfl, ?_, ?_⟩
  · intro n d hmem
    rw [hpl]
    exact pipelineFanOut_lookup pipes _ n (Except.error d) hnd hmem
  · intro n opps hmem
    rw [hpl]
    exact pipelineFanOut_lookup pipes _ n (Except.ok opps) hnd hmem

theorem claim_C1_witness :
    (statsLocationFanOut (Except.ok []) (Except.ok [])
        [("adult", Except.error "boom"), ("youth", Except.ok [⟨none, some ["won"]⟩])] 0 10).1 = 200 ∧
    (statsLocationFanOut (Except.ok []) (Except.ok [])
        [("adult", Except.error "boom"), ("youth", Except.ok [⟨none, some ["won"]⟩])] 0 10).2.pipelines "adult" =
      some (PipeEntry.errorMarker "boom") ∧
    (statsLocationFanOut (Except.ok []) (Except.ok [])
        [("adult", Except.error "boom"), ("youth", Except.ok [⟨none, some ["won"]⟩])] 0 10).2.pipelines "youth" =
      some (PipeEntry.stats 1 1 0) := by
  have h := claim_C1_amended (Except.ok []) (Except.ok [])
    [("adult", Except.error "boom"), ("youth", Except.ok [⟨none, some ["won"]⟩])] 0 10 (by decide)
  refine ⟨h.1, h.2.1 "adult" "boom" (by simp), ?_⟩
  have h3 := h.2.2 "youth" [⟨none, some ["won"]⟩] (by simp)
  simpa using h3

/-- Claim C2 counterexample: in the final variant's single-location route,
a failed contacts fetch does NOT abort the computation with a 500 — the
failure is caught inside `computeOne` (src/server.js lines 563-574), the
fold runs over an empty contact list, and the route answers 200. -/
theorem claim_C2_counterexample :
    (statsLocationRoute (some ([("adult", Except.ok [])], Except.error "contacts down"))
      0 10).1 = 200 := rfl

/-- Claim C2 as amended: the abort-with-500 behaviour holds in the part_007
(and identically part_004) variant, whose route returns
`res.status(500)` when the contacts fetch fails; in the final variant's
`computeOne` the contacts failure is swallowed and every contact-derived
outcome metric of the result is zero while the route still answers 200. -/
theorem claim_C2_amended (pipes : PipeFetches) (d : String) (start stop : Int) :
    (statsRoute007 pipes (Except.error d) start stop).1 = 500 ∧
    (computeOne pipes (Except.error d) start stop).combined.appointments = 0 ∧
    (computeOne pipes (Except.error d) start stop).combined.shows = 0 ∧
    (computeOne pipes (Except.error d) start stop).combined.noShows = 0 ∧
    (computeOne pipes (Except.error d) start stop).combined.wins = 0 ∧
    (computeOne pipes (Except.error d) start stop).combined.cold = 0 :=
  ⟨rfl, rfl, rfl, rfl, rfl, rfl⟩

end Dash
